import Mathlib

/-!
Verification of the RENUS voice-interaction subsystem against its source.

The definitions below are shallow embeddings of:
  - `useVoiceWebSocket` (the WebSocket session transport with auto-reconnect,
    exponential backoff and an in-memory message queue),
  - `useSessionPersistence` (expiring session records),
  - `useAudioManager` (silence detection, recording stop, playback queue),
  - the `onMessage` handler of the `VoiceInteraction` page component.

Stateful hook code is modelled as explicit state passing: each browser/React
event becomes a step function on a state record, and a run is a fold of steps
over an event list.  Timers are modelled by their absolute deadlines; a timer
"fires" when an event at a time past its deadline is processed.
-/

namespace VoiceWS

/-- Connection states of the transport, from `type ConnectionState` in
`useVoiceWebSocket`. -/
inductive ConnState where
  | connecting
  | connected
  | disconnected
  | errorState
deriving DecidableEq

/-- The transport options that matter for reconnection, from
`UseVoiceWebSocketOptions`. -/
structure Config where
  reconnectAttempts : Nat
  reconnectDelay : Nat
deriving DecidableEq

/-- The defaults of `useVoiceWebSocket`: `reconnectAttempts = 3`,
`reconnectDelay = 1000`. -/
def defaultConfig : Config := { reconnectAttempts := 3, reconnectDelay := 1000 }

/-- The mutable state of the hook: `connectionState`, `reconnectCountRef`,
`reconnectTimeoutRef` (modelled as the delay of the pending timer, if any),
`messageQueueRef`, and whether `wsRef.current` is an OPEN socket. -/
structure WSState where
  connectionState : ConnState
  reconnectCount : Nat
  pendingDelay : Option Nat
  messageQueue : List String
  socketOpen : Bool
deriving DecidableEq

/-- Observable outputs of a step: a frame transmitted on the socket, a
reconnect timer scheduled with a given delay, an actual connection attempt
(`new WebSocket`), or an error surfaced to the caller via `setError`/`onError`. -/
inductive Output where
  | transmit (m : String)
  | scheduleReconnect (delay : Nat)
  | connectAttempt
  | surfaceError
deriving DecidableEq

/-- Events driving the transport: the socket `open` and `close` callbacks, the
pending reconnect timer firing, a `sendMessage` call, a `disconnect` call and a
manual `reconnect` call. -/
inductive Event where
  | onOpen
  | onClose
  | timerFire
  | sendMsg (m : String)
  | disconnect
  | manualReconnect
deriving DecidableEq

/-- The `connect` function: returns early if the socket is already OPEN,
otherwise sets state to `connecting` and creates a new WebSocket (one
connection attempt). -/
def connect (s : WSState) : WSState × List Output :=
  if s.socketOpen then (s, [])
  else ({ s with connectionState := ConnState.connecting }, [Output.connectAttempt])

/-- One event step of `useVoiceWebSocket`.

`onOpen` sets `connected`, resets the retry counter and flushes the queued
messages in FIFO order.  `onClose` sets `disconnected`, drops the socket, and
if the retry counter is below the maximum schedules a reconnect after
`reconnectDelay * 2 ^ reconnectCount`; otherwise it surfaces the
max-attempts error.  `timerFire` increments the retry counter and calls
`connect`.  `sendMsg` transmits when the socket is OPEN and queues otherwise.
`disconnect` clears the pending timer, closes the socket and resets the
counter.  `manualReconnect` is `disconnect` followed by a `connect`. -/
def step (cfg : Config) (s : WSState) : Event → WSState × List Output
  | Event.onOpen =>
      ({ s with connectionState := ConnState.connected, reconnectCount := 0,
                messageQueue := [], socketOpen := true },
       s.messageQueue.map Output.transmit)
  | Event.onClose =>
      let s1 := { s with connectionState := ConnState.disconnected, socketOpen := false }
      if s.reconnectCount < cfg.reconnectAttempts then
        ({ s1 with pendingDelay := some (cfg.reconnectDelay * 2 ^ s.reconnectCount) },
         [Output.scheduleReconnect (cfg.reconnectDelay * 2 ^ s.reconnectCount)])
      else
        (s1, [Output.surfaceError])
  | Event.timerFire =>
      match s.pendingDelay with
      | some _ =>
          let s1 := { s with pendingDelay := none, reconnectCount := s.reconnectCount + 1 }
          connect s1
      | none => (s, [])
  | Event.sendMsg m =>
      if s.socketOpen then (s, [Output.transmit m])
      else ({ s with messageQueue := s.messageQueue ++ [m] }, [])
  | Event.disconnect =>
      ({ s with pendingDelay := none, socketOpen := false,
                connectionState := ConnState.disconnected, reconnectCount := 0 }, [])
  | Event.manualReconnect =>
      let s1 := { s with pendingDelay := none, socketOpen := false,
                         connectionState := ConnState.disconnected, reconnectCount := 0 }
      connect s1

/-- Run a list of events, accumulating outputs in order. -/
def run (cfg : Config) (s : WSState) : List Event → WSState × List Output
  | [] => (s, [])
  | e :: es =>
      let r1 := step cfg s e
      let r2 := run cfg r1.1 es
      (r2.1, r1.2 ++ r2.2)

/-- The delays of the reconnect timers scheduled in an output trace. -/
def scheduledDelays (outs : List Output) : List Nat :=
  outs.filterMap fun o =>
    match o with
    | Output.scheduleReconnect d => some d
    | _ => none

/-- The number of actual connection attempts in an output trace. -/
def attemptCount (outs : List Output) : Nat :=
  outs.countP fun o =>
    match o with
    | Output.connectAttempt => true
    | _ => false

/-- Automatic events: the ones the transport generates without user action
(socket closes and reconnect-timer fires). -/
inductive AutoEvent where
  | onClose
  | timerFire
deriving DecidableEq

/-- View an automatic event as a transport event. -/
def AutoEvent.toEvent : AutoEvent → Event
  | AutoEvent.onClose => Event.onClose
  | AutoEvent.timerFire => Event.timerFire

/-- Run a list of automatic events. -/
def runAuto (cfg : Config) (s : WSState) (es : List AutoEvent) : WSState × List Output :=
  run cfg s (es.map AutoEvent.toEvent)

/-- The state right after a successful open: connected, retry counter zero, no
pending timer, empty queue, socket OPEN. -/
def connectedState : WSState :=
  { connectionState := ConnState.connected, reconnectCount := 0,
    pendingDelay := none, messageQueue := [], socketOpen := true }

/-- A disconnected state with an arbitrary queue: not connected, no pending
timer, socket not open. -/
def disconnectedState (q : List String) : WSState :=
  { connectionState := ConnState.disconnected, reconnectCount := 0,
    pendingDelay := none, messageQueue := q, socketOpen := false }

end VoiceWS

namespace Session

/-- The `SessionData` record persisted by `useSessionPersistence`. -/
structure SessionData where
  conversationId : String
  leadId : Option String
  timestamp : Nat
  expiresAt : Nat
deriving DecidableEq

/-- The record built by `saveSession`: `timestamp = Date.now()` and
`expiresAt = Date.now() + sessionTimeout`. -/
def saveSession (sessionTimeout now : Nat) (conversationId : String)
    (leadId : Option String) : SessionData :=
  { conversationId := conversationId, leadId := leadId,
    timestamp := now, expiresAt := now + sessionTimeout }

/-- The `isSessionValid` check: `false` when no record is loaded, otherwise
`Date.now() < expiresAt`. -/
def isSessionValid (sessionData : Option SessionData) (now : Nat) : Bool :=
  match sessionData with
  | none => false
  | some d => now < d.expiresAt

end Session

namespace AudioMgr

/-- The silence-detection parameters of `useAudioManager`.
`silenceThreshold` is the value the computed 0-100 audio level is compared
against (the source compares `level < config.silenceThreshold * 100`, so this
field holds the already-scaled threshold); `silenceDuration` is the silence
timer duration in milliseconds. -/
structure AudioConfig where
  silenceThreshold : Nat
  silenceDuration : Nat
deriving DecidableEq

/-- The state of the level monitor: the armed silence timer
(`silenceTimeoutRef`, modelled by its absolute fire time), whether recording
is active (`isRecording`), and how many automatic stops the silence timer has
triggered. -/
structure MonState where
  silenceTimeout : Option Nat
  isRecording : Bool
  autoStops : Nat
deriving DecidableEq

/-- Fresh monitor state right after `startRecording`: no silence timer armed,
recording active, no automatic stop yet. -/
def initMon : MonState := { silenceTimeout := none, isRecording := true, autoStops := 0 }

/-- Fire the armed silence timer if its deadline has passed.  The timer
callback calls `stopRecording`, which clears the timer and sets
`isRecording` to false; this counts as one automatic stop. -/
def fireIfDue (s : MonState) (now : Nat) : MonState :=
  match s.silenceTimeout with
  | some d =>
      if d ≤ now then
        { silenceTimeout := none, isRecording := false, autoStops := s.autoStops + 1 }
      else s
  | none => s

/-- The silence logic of one `monitorAudioLevel` frame at time `now` with
computed `level`: below threshold, arm a timer for `now + silenceDuration`
only if none is armed (`if (!silenceTimeoutRef.current)`); at or above
threshold, clear any armed timer.  The frame loop only runs while recording. -/
def monitorSample (cfg : AudioConfig) (s : MonState) (now level : Nat) : MonState :=
  if s.isRecording = false then s
  else if level < cfg.silenceThreshold then
    match s.silenceTimeout with
    | none => { s with silenceTimeout := some (now + cfg.silenceDuration) }
    | some _ => s
  else
    { s with silenceTimeout := none }

/-- Process one sample event `(time, level)`: a due timer fires before the
frame runs, then the frame's silence logic applies. -/
def monStep (cfg : AudioConfig) (s : MonState) (e : Nat × Nat) : MonState :=
  monitorSample cfg (fireIfDue s e.1) e.1 e.2

/-- Run the monitor over a trace of `(time, level)` samples. -/
def monRun (cfg : AudioConfig) (s : MonState) : List (Nat × Nat) → MonState
  | [] => s
  | e :: es => monRun cfg (monStep cfg s e) es

/-- Let time advance to `tEnd` after the last sample: a still-armed timer
whose deadline is reached fires. -/
def monFlush (s : MonState) (tEnd : Nat) : MonState := fireIfDue s tEnd

/-- States of a `MediaRecorder`. -/
inductive RecorderState where
  | inactive
  | recording
  | paused
deriving DecidableEq

/-- The capture-side resources of `useAudioManager`: the chunk interval
(`chunkIntervalRef`), the silence timer (`silenceTimeoutRef`), the recorder
(`mediaRecorderRef`, `none` when the ref is null), the stream and audio
context refs, the `isRecording` and `audioLevel` values, and the number of
final segments emitted so far through `mediaRecorder.onstop` →
`onRecordingComplete`. -/
structure CaptureState where
  chunkInterval : Bool
  silenceTimeout : Option Nat
  mediaRecorder : Option RecorderState
  stream : Bool
  audioContext : Bool
  isRecording : Bool
  audioLevel : Nat
  finalSegments : Nat
deriving DecidableEq

/-- A fresh capture state before any recording. -/
def initCapture : CaptureState :=
  { chunkInterval := false, silenceTimeout := none, mediaRecorder := none,
    stream := false, audioContext := false, isRecording := false,
    audioLevel := 0, finalSegments := 0 }

/-- The effect of `startRecording` on the capture resources: a recorder in
state `recording` is installed, the chunk interval armed, stream and audio
context acquired, `isRecording` set. -/
def startRecording (s : CaptureState) : CaptureState :=
  { s with chunkInterval := true, mediaRecorder := some RecorderState.recording,
           stream := true, audioContext := true, isRecording := true }

/-- The `stopRecording` function: clears the chunk interval and silence timer,
calls `mediaRecorder.stop()` only when a recorder exists and its state is not
`'inactive'` (each such call leads to exactly one `onstop` and one final
segment), stops the stream tracks, closes the audio context, and resets
`isRecording` and `audioLevel`. -/
def stopRecording (s : CaptureState) : CaptureState :=
  let s1 := { s with chunkInterval := false, silenceTimeout := none }
  let s2 :=
    match s1.mediaRecorder with
    | some r =>
        if r ≠ RecorderState.inactive then
          { s1 with mediaRecorder := some RecorderState.inactive,
                    finalSegments := s1.finalSegments + 1 }
        else s1
    | none => s1
  { s2 with stream := false, audioContext := false, isRecording := false, audioLevel := 0 }

/-- A capture state is inactive when every resource `stopRecording` tears down
is already released. -/
def CaptureState.inactive (s : CaptureState) : Prop :=
  s.chunkInterval = false ∧ s.silenceTimeout = none ∧
  (s.mediaRecorder = none ∨ s.mediaRecorder = some RecorderState.inactive) ∧
  s.stream = false ∧ s.audioContext = false ∧ s.isRecording = false ∧ s.audioLevel = 0

/-- The state of the playback queue: the `isPlaying` flag, the pending queue
(`audioQueueRef`), the element currently playing (`currentAudioRef`), the
segments whose playback has started in start order, and the number of
surfaced playback errors. -/
structure PlayState where
  isPlaying : Bool
  audioQueue : List String
  currentAudio : Option String
  started : List String
  playbackErrors : Nat
deriving DecidableEq

/-- The empty playback queue. -/
def initPlay : PlayState :=
  { isPlaying := false, audioQueue := [], currentAudio := none,
    started := [], playbackErrors := 0 }

/-- The `playAudio` function: if something is already playing the segment is
appended to the queue, otherwise playback of the segment starts immediately. -/
def playAudio (s : PlayState) (seg : String) : PlayState :=
  if s.isPlaying then { s with audioQueue := s.audioQueue ++ [seg] }
  else { s with isPlaying := true, currentAudio := some seg,
                started := s.started ++ [seg] }

/-- The `audio.onended` handler: clears `isPlaying` and the current element,
then shifts the queue and plays the next segment if one is pending. -/
def onEnded (s : PlayState) : PlayState :=
  let s1 := { s with isPlaying := false, currentAudio := none }
  match s1.audioQueue with
  | next :: rest => playAudio { s1 with audioQueue := rest } next
  | [] => s1

/-- The `audio.onerror` handler: clears `isPlaying` and the current element
and rejects the playback promise (one surfaced error).  It does not touch the
queue. -/
def onPlaybackError (s : PlayState) : PlayState :=
  { s with isPlaying := false, currentAudio := none,
           playbackErrors := s.playbackErrors + 1 }

/-- Events of the playback queue: an enqueue (`playAudio` call), the natural
end of the current element, or a decode/playback failure of the current
element.  End and failure events without a current element are no-ops (no
element means no handler to fire). -/
inductive PlayEvent where
  | enqueue (seg : String)
  | ended
  | errored
deriving DecidableEq

/-- One playback event step. -/
def playStep (s : PlayState) : PlayEvent → PlayState
  | PlayEvent.enqueue seg => playAudio s seg
  | PlayEvent.ended => if s.currentAudio.isSome then onEnded s else s
  | PlayEvent.errored => if s.currentAudio.isSome then onPlaybackError s else s

/-- Run a list of playback events. -/
def playRun (s : PlayState) : List PlayEvent → PlayState
  | [] => s
  | e :: es => playRun (playStep s e) es

/-- Error-free playback events: enqueues and natural completions only. -/
inductive QueueEvent where
  | enqueue (seg : String)
  | ended
deriving DecidableEq

/-- View an error-free event as a playback event. -/
def QueueEvent.toPlayEvent : QueueEvent → PlayEvent
  | QueueEvent.enqueue seg => PlayEvent.enqueue seg
  | QueueEvent.ended => PlayEvent.ended

/-- The segments enqueued by a list of error-free events, in order. -/
def enqueuedOf (evs : List QueueEvent) : List String :=
  evs.filterMap fun e =>
    match e with
    | QueueEvent.enqueue seg => some seg
    | QueueEvent.ended => none

end AudioMgr

namespace VoicePage

/-- Agent states, from `AgentState` in the voice types. -/
inductive AgentState where
  | idle
  | listening
  | thinking
  | speaking
deriving DecidableEq

/-- Entry speakers. -/
inductive Speaker where
  | user
  | agent
deriving DecidableEq

/-- A conversation log entry as built by the page (id and timestamp omitted:
they are wall-clock values irrelevant to the claims). -/
structure ConversationEntry where
  speaker : Speaker
  text : String
  state : AgentState
deriving DecidableEq

/-- An inbound `VoiceMessage` with the fields the page handler reads.  A JS
`undefined`/missing field is `none`; note that the empty string is falsy in
JS, which `truthy` below accounts for. -/
structure VoiceMessage where
  type : String
  text : Option String := none
  state : Option AgentState := none
  audio_base64 : Option String := none
  conversation_id : Option String := none
  lead_id : Option String := none
  functionalities : Option (List String) := none
  errorText : Option String := none
deriving DecidableEq

/-- JS truthiness of an optional string: missing/null and the empty string are
falsy. -/
def truthy : Option String → Bool
  | none => false
  | some s => !(s == "")

/-- The `interactionState` of the `VoiceInteraction` page, plus the separate
`currentTranscription` state. -/
structure PageState where
  agentState : AgentState
  conversationId : Option String
  leadId : Option String
  transcriptions : List ConversationEntry
  functionalities : List String
  lastError : Option String
  currentTranscription : String
deriving DecidableEq

/-- The page state on first mount with no persisted session. -/
def initPage : PageState :=
  { agentState := AgentState.idle, conversationId := none, leadId := none,
    transcriptions := [], functionalities := [], lastError := none,
    currentTranscription := "" }

/-- Calls the handler makes into its collaborators: an enqueue on the playback
queue (`playAudio`), a `saveSession` call, or a toast notification. -/
inductive Effect where
  | enqueueAudio (seg : String)
  | saveSession (conversationId : String) (leadId : Option String)
  | toastShown
deriving DecidableEq

/-- Runtime errors the handler can throw. -/
inductive JsError where
  | referenceErrorPrevUnbound
deriving DecidableEq

/-- The `onMessage` callback of `VoiceInteraction`.

In the `response` branch the source reads
`const newConversationId = message.conversation_id || prev.conversationId;`
and `const newLeadId = message.lead_id || prev.leadId;` outside the
`setInteractionState(prev => ...)` updater, where `prev` is not bound.  By JS
short-circuit evaluation of `||`, the unbound `prev` is only reached — and a
`ReferenceError` thrown — when the corresponding message field is falsy.
When both fields are truthy the branch appends the agent entry, adopts the
server identifiers, saves the session, enqueues the audio payload if present
and clears the current transcription.  A `transcription` message only sets
`currentTranscription`; an `error` message sets the error field and shows a
toast. -/
def onMessage (ps : PageState) (m : VoiceMessage) : Except JsError (PageState × List Effect) :=
  if m.type == "response" && truthy m.text then
    let entry : ConversationEntry :=
      { speaker := Speaker.agent, text := m.text.getD "",
        state := m.state.getD AgentState.speaking }
    if truthy m.conversation_id = false then
      Except.error JsError.referenceErrorPrevUnbound
    else if truthy m.lead_id = false then
      Except.error JsError.referenceErrorPrevUnbound
    else
      let newConversationId := m.conversation_id.getD ""
      let newLeadId := m.lead_id.getD ""
      let ps1 := { ps with
        transcriptions := ps.transcriptions ++ [entry],
        conversationId := some newConversationId,
        leadId := some newLeadId,
        functionalities := m.functionalities.getD ps.functionalities }
      let saveEffs :=
        if newConversationId == "" then []
        else [Effect.saveSession newConversationId (some newLeadId)]
      let playEffs :=
        if truthy m.audio_base64 then [Effect.enqueueAudio (m.audio_base64.getD "")]
        else []
      Except.ok ({ ps1 with currentTranscription := "" }, saveEffs ++ playEffs)
  else if m.type == "transcription" && truthy m.text then
    Except.ok ({ ps with currentTranscription := m.text.getD "" }, [])
  else if m.type == "error" then
    Except.ok ({ ps with lastError := if truthy m.errorText then m.errorText else none },
               [Effect.toastShown])
  else
    Except.ok (ps, [])

/-- Delivery of one inbound frame via `ws.onmessage` in `useVoiceWebSocket`:
a `state`-tagged message first triggers `onStateChange` (which sets the agent
state), then `onMessage` runs; an exception thrown by `onMessage` is caught by
the surrounding `try`/`catch` and merely logged, so the message is dropped
with the state reached so far kept. -/
def processInbound (ps : PageState) (m : VoiceMessage) : PageState × List Effect :=
  let ps1 :=
    if m.type == "state" && m.state.isSome then
      { ps with agentState := m.state.getD ps.agentState }
    else ps
  match onMessage ps1 m with
  | Except.ok r => r
  | Except.error _ => (ps1, [])

/-- Deliver a sequence of inbound frames in arrival order, accumulating the
collaborator calls. -/
def processSeq (ps : PageState) : List VoiceMessage → PageState × List Effect
  | [] => (ps, [])
  | m :: ms =>
      let r1 := processInbound ps m
      let r2 := processSeq r1.1 ms
      (r2.1, r1.2 ++ r2.2)

/-- The `onRecordingComplete` callback: appends the user entry with the
current transcription, or the placeholder text when none arrived yet.  This is
the only place a user entry is appended to the log. -/
def onRecordingComplete (ps : PageState) : PageState :=
  { ps with transcriptions := ps.transcriptions ++
      [{ speaker := Speaker.user,
         text := if ps.currentTranscription == "" then "Processando..."
                 else ps.currentTranscription,
         state := AgentState.listening }] }

end VoicePage

namespace VoiceWS

/-- Outputs of a run split over appended event lists. -/
theorem run_append (cfg : Config) :
    ∀ (a b : List Event) (s : WSState),
      run cfg s (a ++ b) =
        ((run cfg (run cfg s a).1 b).1, (run cfg s a).2 ++ (run cfg (run cfg s a).1 b).2) := by
  intro a
  induction a with
  | nil => intro b s; simp [run]
  | cons e a ih => intro b s; simp [run, ih]

/-- Sends while the socket is not open only accumulate in the queue, in
arrival order, and transmit nothing. -/
theorem run_sends_closed (cfg : Config) :
    ∀ (msgs : List String) (s : WSState), s.socketOpen = false →
      run cfg s (msgs.map Event.sendMsg) =
        ({ s with messageQueue := s.messageQueue ++ msgs }, []) := by
  intro msgs
  induction msgs with
  | nil => intro s h; simp [run]
  | cons m msgs ih =>
      intro s h
      have h1 : (step cfg s (Event.sendMsg m)) =
          ({ s with messageQueue := s.messageQueue ++ [m] }, []) := by
        simp [step, h]
      simp only [List.map_cons, run, h1]
      rw [ih _ (by simp [h])]
      simp

/-- Along automatic events (closes and timer fires), the number of actual
connection attempts plus the current retry counter never exceeds the
configured maximum, provided a pending timer implies the counter is below the
maximum and the socket is down. -/
theorem runAuto_attempts (cfg : Config) :
    ∀ (es : List AutoEvent) (s : WSState),
      (s.pendingDelay.isSome = true → s.reconnectCount < cfg.reconnectAttempts ∧ s.socketOpen = false) →
      s.reconnectCount ≤ cfg.reconnectAttempts →
      attemptCount (runAuto cfg s es).2 + s.reconnectCount ≤ cfg.reconnectAttempts := by
  intro es
  induction es with
  | nil => intro s _ hle; simpa [runAuto, run, attemptCount] using hle
  | cons e es ih =>
      intro s hinv hle
      have hsplit : attemptCount (runAuto cfg s (e :: es)).2 =
          attemptCount (step cfg s e.toEvent).2 +
            attemptCount (runAuto cfg (step cfg s e.toEvent).1 es).2 := by
        simp [runAuto, run, attemptCount, List.countP_append]
      rw [hsplit]
      cases e with
      | onClose =>
          by_cases hc : s.reconnectCount < cfg.reconnectAttempts
          · have hrest := ih (step cfg s AutoEvent.onClose.toEvent).1
              (by intro _; simp [AutoEvent.toEvent, step, hc])
              (by simpa [AutoEvent.toEvent, step, hc] using Nat.le_of_lt hc)
            have hcount : attemptCount (step cfg s AutoEvent.onClose.toEvent).2 = 0 := by
              simp [AutoEvent.toEvent, step, hc, attemptCount]
            have hrc : (step cfg s AutoEvent.onClose.toEvent).1.reconnectCount =
                s.reconnectCount := by
              simp [AutoEvent.toEvent, step, hc]
            rw [hrc] at hrest
            omega
          · have hrest := ih (step cfg s AutoEvent.onClose.toEvent).1
              (by
                intro hp
                simp only [AutoEvent.toEvent, step, hc, if_false] at hp
                exact absurd (hinv hp).1 hc)
              (by simpa [AutoEvent.toEvent, step, hc] using hle)
            have hcount : attemptCount (step cfg s AutoEvent.onClose.toEvent).2 = 0 := by
              simp [AutoEvent.toEvent, step, hc, attemptCount]
            have hrc : (step cfg s AutoEvent.onClose.toEvent).1.reconnectCount =
                s.reconnectCount := by
              simp [AutoEvent.toEvent, step, hc]
            rw [hrc] at hrest
            omega
      | timerFire =>
          cases hp : s.pendingDelay with
          | none =>
              have hstep : step cfg s AutoEvent.timerFire.toEvent = (s, []) := by
                simp [AutoEvent.toEvent, step, hp]
              rw [hstep]
              have hrest := ih s hinv hle
              simpa [attemptCount] using hrest
          | some d =>
              have hopen : s.socketOpen = false := (hinv (by simp [hp])).2
              have hlt : s.reconnectCount < cfg.reconnectAttempts := (hinv (by simp [hp])).1
              have hstep : step cfg s AutoEvent.timerFire.toEvent =
                  ({ s with pendingDelay := none, reconnectCount := s.reconnectCount + 1,
                            connectionState := ConnState.connecting },
                   [Output.connectAttempt]) := by
                simp [AutoEvent.toEvent, step, hp, connect, hopen]
              have hrest := ih (step cfg s AutoEvent.timerFire.toEvent).1
                (by intro hq; rw [hstep] at hq; simp at hq)
                (by rw [hstep]; simpa using hlt)
              have hcount : attemptCount (step cfg s AutoEvent.timerFire.toEvent).2 = 1 := by
                rw [hstep]; simp [attemptCount]
              have hrc : (step cfg s AutoEvent.timerFire.toEvent).1.reconnectCount =
                  s.reconnectCount + 1 := by
                rw [hstep]
              rw [hrc] at hrest
              omega

/-- Claim C1: with the default settings (`reconnectAttempts = 3`,
`reconnectDelay = 1000`), after an unexpected close the delay scheduled before
the Nth automatic reconnection attempt is `1000 * 2 ^ (N - 1)` (concretely
1000, 2000, 4000 over a run where every attempt fails); the retry counter is
unchanged at scheduling time and incremented when the scheduled attempt
fires; a successful open resets the counter to zero; at most 3 automatic
attempts occur over any sequence of automatic events from a freshly connected
state, and the 4th close surfaces an error instead of scheduling; a manual
`reconnect()` resets the counter to zero and immediately makes a connection
attempt. -/
theorem C1_reconnect_backoff :
    ((run defaultConfig connectedState
        [Event.onClose, Event.timerFire, Event.onClose, Event.timerFire,
         Event.onClose, Event.timerFire, Event.onClose]).2 =
      [Output.scheduleReconnect 1000, Output.connectAttempt,
       Output.scheduleReconnect 2000, Output.connectAttempt,
       Output.scheduleReconnect 4000, Output.connectAttempt,
       Output.surfaceError]
      ∧ scheduledDelays (run defaultConfig connectedState
        [Event.onClose, Event.timerFire, Event.onClose, Event.timerFire,
         Event.onClose, Event.timerFire, Event.onClose]).2 =
          [1000 * 2 ^ 0, 1000 * 2 ^ 1, 1000 * 2 ^ 2])
    ∧ (∀ s : WSState, (step defaultConfig s Event.onClose).2 =
        if s.reconnectCount < 3 then
          [Output.scheduleReconnect (1000 * 2 ^ s.reconnectCount)]
        else [Output.surfaceError])
    ∧ (∀ s : WSState, (step defaultConfig s Event.onClose).1.reconnectCount = s.reconnectCount)
    ∧ (∀ s : WSState, (step defaultConfig s Event.timerFire).1.reconnectCount =
        if s.pendingDelay.isSome then s.reconnectCount + 1 else s.reconnectCount)
    ∧ (∀ s : WSState, (step defaultConfig s Event.onOpen).1.reconnectCount = 0)
    ∧ (∀ s : WSState, (step defaultConfig s Event.manualReconnect).1.reconnectCount = 0
         ∧ (step defaultConfig s Event.manualReconnect).2 = [Output.connectAttempt])
    ∧ (∀ es : List AutoEvent, attemptCount (runAuto defaultConfig connectedState es).2 ≤ 3) := by
  refine ⟨⟨by decide, by decide⟩, ?_, ?_, ?_, ?_, ?_, ?_⟩
  · intro s
    by_cases h : s.reconnectCount < 3 <;> simp [step, defaultConfig, h]
  · intro s
    by_cases h : s.reconnectCount < 3 <;> simp [step, defaultConfig, h]
  · intro s
    cases hp : s.pendingDelay with
    | none => simp [step, hp]
    | some d =>
        simp [step, hp, connect]
        split <;> rfl
  · intro s; rfl
  · intro s
    constructor
    · simp [step, connect]
    · simp [step, connect]
  · intro es
    have h := runAuto_attempts defaultConfig es connectedState
      (by intro h; simp [connectedState] at h) (by simp [connectedState, defaultConfig])
    simpa [connectedState, defaultConfig] using h

/-- Claim C7: a message sent while the transport is not connected is appended
to the in-memory queue instead of being dropped; while connected, `send`
transmits immediately without touching the queue; on open, every queued
message is transmitted in FIFO order and the queue empties.  In particular, a
burst of sends while disconnected transmits nothing until the open, at which
point exactly those messages go out in order. -/
theorem C7_send_queue_flush :
    (∀ (s : WSState) (m : String), step defaultConfig s (Event.sendMsg m) =
        if s.socketOpen then (s, [Output.transmit m])
        else ({ s with messageQueue := s.messageQueue ++ [m] }, []))
    ∧ (∀ s : WSState, (step defaultConfig s Event.onOpen).2 = s.messageQueue.map Output.transmit
         ∧ (step defaultConfig s Event.onOpen).1.messageQueue = [])
    ∧ (∀ msgs : List String,
        (run defaultConfig (disconnectedState []) (msgs.map Event.sendMsg)).2 = []
        ∧ (run defaultConfig (disconnectedState [])
            (msgs.map Event.sendMsg ++ [Event.onOpen])).2 = msgs.map Output.transmit
        ∧ (run defaultConfig (disconnectedState [])
            (msgs.map Event.sendMsg ++ [Event.onOpen])).1.messageQueue = []) := by
  refine ⟨?_, ?_, ?_⟩
  · intro s m
    by_cases h : s.socketOpen <;> simp [step, h]
  · intro s; exact ⟨rfl, rfl⟩
  · intro msgs
    have hq : (disconnectedState []).socketOpen = false := rfl
    have hsends := run_sends_closed defaultConfig msgs (disconnectedState []) hq
    refine ⟨by simp [hsends], ?_, ?_⟩
    · rw [run_append, hsends]
      simp [run, step, disconnectedState]
    · rw [run_append, hsends]
      simp [run, step, disconnectedState]

/-- Claim C10: after `disconnect()` the pending reconnect timer is cancelled
(a subsequent timer-fire event is a no-op producing no connection attempt),
the retry counter is reset to zero, and the message queue is preserved, not
discarded. -/
theorem C10_disconnect_cancels :
    ∀ (cfg : Config) (s : WSState),
      (step cfg s Event.disconnect).1.pendingDelay = none
      ∧ (step cfg s Event.disconnect).1.reconnectCount = 0
      ∧ (step cfg s Event.disconnect).1.messageQueue = s.messageQueue
      ∧ (step cfg s Event.disconnect).2 = []
      ∧ step cfg ((step cfg s Event.disconnect).1) Event.timerFire =
          ((step cfg s Event.disconnect).1, []) := by
  intro cfg s
  exact ⟨rfl, rfl, rfl, rfl, rfl⟩

end VoiceWS

namespace Session

/-- Claim C8: a session saved with timeout `T` at time `t0` is reported valid
at every probe time in `[t0, t0 + T)` and invalid at every probe time at or
after `t0 + T`; with no record loaded the check reports invalid. -/
theorem C8_session_validity :
    ∀ (T t0 : Nat) (cid : String) (lid : Option String) (t : Nat),
      (t0 ≤ t → t < t0 + T →
        isSessionValid (some (saveSession T t0 cid lid)) t = true)
      ∧ (t0 + T ≤ t →
        isSessionValid (some (saveSession T t0 cid lid)) t = false)
      ∧ isSessionValid none t = false := by
  intro T t0 cid lid t
  refine ⟨?_, ?_, rfl⟩
  · intro _ h2
    simp [isSessionValid, saveSession]
    omega
  · intro h
    simp [isSessionValid, saveSession]
    omega

/-- Witness for C8 at concrete values: a session saved at time 5 with timeout
10 is valid at time 7 and invalid at time 15. -/
theorem C8_session_validity_witness :
    isSessionValid (some (saveSession 10 5 "c1" none)) 7 = true
    ∧ isSessionValid (some (saveSession 10 5 "c1" none)) 15 = false :=
  ⟨(C8_session_validity 10 5 "c1" none 7).1 (by decide) (by decide),
   (C8_session_validity 10 5 "c1" none 15).2.1 (by decide)⟩

end Session

namespace AudioMgr

/-- A monitor run splits over appended traces. -/
theorem monRun_append (cfg : AudioConfig) :
    ∀ (a b : List (Nat × Nat)) (s : MonState),
      monRun cfg s (a ++ b) = monRun cfg (monRun cfg s a) b := by
  intro a
  induction a with
  | nil => intro b s; simp [monRun]
  | cons e a ih => intro b s; simp [monRun, ih]

/-- Once recording has stopped and no timer is armed, further samples change
nothing. -/
theorem monRun_stopped (cfg : AudioConfig) :
    ∀ (tr : List (Nat × Nat)) (n : Nat),
      monRun cfg ⟨none, false, n⟩ tr = ⟨none, false, n⟩ := by
  intro tr
  induction tr with
  | nil => intro n; rfl
  | cons e tr ih =>
      intro n
      have h1 : monStep cfg ⟨none, false, n⟩ e = ⟨none, false, n⟩ := rfl
      simp only [monRun, h1]
      exact ih n

/-- While the silence timer is armed and every sample stays below the
threshold, the run either keeps the timer armed at its original deadline or
has fired it, stopping the recording with exactly one more automatic stop. -/
theorem monRun_silent_armed (cfg : AudioConfig) :
    ∀ (tr : List (Nat × Nat)) (d n : Nat),
      (∀ p ∈ tr, p.2 < cfg.silenceThreshold) →
      monRun cfg ⟨some d, true, n⟩ tr = ⟨some d, true, n⟩ ∨
        monRun cfg ⟨some d, true, n⟩ tr = ⟨none, false, n + 1⟩ := by
  intro tr
  induction tr with
  | nil => intro d n _; exact Or.inl rfl
  | cons e tr ih =>
      intro d n hbelow
      have hb : e.2 < cfg.silenceThreshold := hbelow e (List.mem_cons_self e tr)
      by_cases hd : d ≤ e.1
      · have h1 : monStep cfg ⟨some d, true, n⟩ e = ⟨none, false, n + 1⟩ := by
          simp [monStep, fireIfDue, hd, monitorSample]
        simp only [monRun, h1]
        exact Or.inr (monRun_stopped cfg tr (n + 1))
      · have h1 : monStep cfg ⟨some d, true, n⟩ e = ⟨some d, true, n⟩ := by
          simp [monStep, fireIfDue, hd, monitorSample, hb]
        simp only [monRun, h1]
        exact ih d n (fun p hp => hbelow p (List.mem_cons_of_mem e hp))

/-- While the silence timer is armed, below-threshold samples taken before its
deadline leave the monitor state completely unchanged: the deadline is not
extended and no second timer is layered. -/
theorem monRun_silent_before (cfg : AudioConfig) :
    ∀ (tr : List (Nat × Nat)) (d n : Nat),
      (∀ p ∈ tr, p.2 < cfg.silenceThreshold) →
      (∀ p ∈ tr, p.1 < d) →
      monRun cfg ⟨some d, true, n⟩ tr = ⟨some d, true, n⟩ := by
  intro tr
  induction tr with
  | nil => intro d n _ _; rfl
  | cons e tr ih =>
      intro d n hbelow htime
      have hb : e.2 < cfg.silenceThreshold := hbelow e (List.mem_cons_self e tr)
      have ht : e.1 < d := htime e (List.mem_cons_self e tr)
      have hd : ¬ d ≤ e.1 := by omega
      have h1 : monStep cfg ⟨some d, true, n⟩ e = ⟨some d, true, n⟩ := by
        simp [monStep, fireIfDue, hd, monitorSample, hb]
      simp only [monRun, h1]
      exact ih d n (fun p hp => hbelow p (List.mem_cons_of_mem e hp))
        (fun p hp => htime p (List.mem_cons_of_mem e hp))

/-- Claim C2: starting a fresh recording, (1) if every sample of the trace
stays below the silence threshold and time reaches at least
`firstSampleTime + silenceDuration`, then exactly one automatic stop fires
and recording ends; (2) if a below-threshold period stays within
`silenceDuration` of its first sample and is followed by a sample at or above
the threshold, no automatic stop fires and the pending timer is cancelled
(the state returns exactly to the fresh one); (3) while a timer is armed, a
further below-threshold sample before the deadline does not re-arm or layer a
second timer: the state, deadline included, is unchanged. -/
theorem C2_silence_detection :
    (∀ (cfg : AudioConfig) (t0 l0 : Nat) (tr : List (Nat × Nat)) (tEnd : Nat),
      (∀ p ∈ (t0, l0) :: tr, p.2 < cfg.silenceThreshold) →
      t0 + cfg.silenceDuration ≤ tEnd →
      monFlush (monRun cfg initMon ((t0, l0) :: tr)) tEnd = ⟨none, false, 1⟩)
    ∧ (∀ (cfg : AudioConfig) (t0 l0 : Nat) (tr : List (Nat × Nat)) (t l : Nat),
      (∀ p ∈ (t0, l0) :: tr, p.2 < cfg.silenceThreshold) →
      (∀ p ∈ tr, p.1 < t0 + cfg.silenceDuration) →
      t < t0 + cfg.silenceDuration →
      cfg.silenceThreshold ≤ l →
      monRun cfg initMon (((t0, l0) :: tr) ++ [(t, l)]) = initMon)
    ∧ (∀ (cfg : AudioConfig) (d n t l : Nat),
      t < d → l < cfg.silenceThreshold →
      monStep cfg ⟨some d, true, n⟩ (t, l) = ⟨some d, true, n⟩) := by
  refine ⟨?_, ?_, ?_⟩
  · intro cfg t0 l0 tr tEnd hbelow hEnd
    have hb0 : l0 < cfg.silenceThreshold := hbelow (t0, l0) (List.mem_cons_self _ tr)
    have h1 : monStep cfg initMon (t0, l0) =
        ⟨some (t0 + cfg.silenceDuration), true, 0⟩ := by
      simp [monStep, initMon, fireIfDue, monitorSample, hb0]
    have htr : ∀ p ∈ tr, p.2 < cfg.silenceThreshold :=
      fun p hp => hbelow p (List.mem_cons_of_mem _ hp)
    simp only [monRun, h1]
    rcases monRun_silent_armed cfg tr (t0 + cfg.silenceDuration) 0 htr with h | h
    · rw [h]
      simp [monFlush, fireIfDue, hEnd]
    · rw [h]
      rfl
  · intro cfg t0 l0 tr t l hbelow htime ht hl
    have hb0 : l0 < cfg.silenceThreshold := hbelow (t0, l0) (List.mem_cons_self _ tr)
    have h1 : monStep cfg initMon (t0, l0) =
        ⟨some (t0 + cfg.silenceDuration), true, 0⟩ := by
      simp [monStep, initMon, fireIfDue, monitorSample, hb0]
    have htr : ∀ p ∈ tr, p.2 < cfg.silenceThreshold :=
      fun p hp => hbelow p (List.mem_cons_of_mem _ hp)
    have hcons : ((t0, l0) :: tr) ++ [(t, l)] = (t0, l0) :: (tr ++ [(t, l)]) := rfl
    rw [hcons]
    simp only [monRun, h1]
    rw [monRun_append, monRun_silent_before cfg tr (t0 + cfg.silenceDuration) 0 htr htime]
    have hd : ¬ t0 + cfg.silenceDuration ≤ t := by omega
    have hnl : ¬ l < cfg.silenceThreshold := by omega
    simp [monRun, monStep, fireIfDue, hd, monitorSample, hnl, initMon]
  · intro cfg d n t l ht hl
    have hd : ¬ d ≤ t := by omega
    simp [monStep, fireIfDue, hd, monitorSample, hl]

/-- Witness for C2 at concrete values (threshold 1 on the 0-100 scale, 1500 ms
silence duration): a fully silent trace stops exactly once; silence of 1000 ms
followed by a loud sample does not stop and cancels the timer; a silent sample
at 700 ms before a deadline at 1500 ms leaves the armed timer unchanged. -/
theorem C2_silence_detection_witness :
    monFlush (monRun ⟨1, 1500⟩ initMon [(0, 0), (500, 0)]) 1500 = ⟨none, false, 1⟩
    ∧ monRun ⟨1, 1500⟩ initMon [(0, 0), (1000, 5)] = initMon
    ∧ monStep ⟨1, 1500⟩ ⟨some 1500, true, 0⟩ (700, 0) = ⟨some 1500, true, 0⟩ :=
  ⟨C2_silence_detection.1 ⟨1, 1500⟩ 0 0 [(500, 0)] 1500 (by decide) (by decide),
   C2_silence_detection.2.1 ⟨1, 1500⟩ 0 0 [] 1000 5 (by decide) (by simp) (by decide) (by decide),
   C2_silence_detection.2.2 ⟨1, 1500⟩ 1500 0 700 0 (by decide) (by decide)⟩

/-- Claim C9: `stopRecording` is idempotent on every capture state; a
`startRecording` followed by one or two `stopRecording` calls emits exactly
one final segment; a `stopRecording` on an inactive state (no live recorder,
timers or device resources) has no effect at all. -/
theorem C9_stop_idempotent :
    (∀ s : CaptureState, stopRecording (stopRecording s) = stopRecording s)
    ∧ (∀ s : CaptureState,
        (stopRecording (startRecording s)).finalSegments = s.finalSegments + 1
        ∧ (stopRecording (stopRecording (startRecording s))).finalSegments =
            s.finalSegments + 1)
    ∧ (∀ s : CaptureState, s.inactive → stopRecording s = s) := by
  refine ⟨?_, ?_, ?_⟩
  · intro s
    rcases s with ⟨ci, st, mr, sm, ac, ir, al, fs⟩
    cases mr with
    | none => rfl
    | some r => cases r <;> rfl
  · intro s
    exact ⟨rfl, rfl⟩
  · intro s h
    rcases s with ⟨ci, st, mr, sm, ac, ir, al, fs⟩
    obtain ⟨h1, h2, h3, h4, h5, h6, h7⟩ := h
    simp only at h1 h2 h3 h4 h5 h6 h7
    subst h1; subst h2; subst h4; subst h5; subst h6; subst h7
    rcases h3 with h3 | h3 <;> subst h3 <;> rfl

/-- Witness for C9: on the fresh (inactive) capture state, a stop changes
nothing, and stop-stop equals stop. -/
theorem C9_stop_idempotent_witness :
    stopRecording initCapture = initCapture
    ∧ stopRecording (stopRecording initCapture) = stopRecording initCapture :=
  ⟨C9_stop_idempotent.2.2 initCapture ⟨rfl, rfl, Or.inl rfl, rfl, rfl, rfl, rfl⟩,
   C9_stop_idempotent.1 initCapture⟩

/-- Invariant of error-free playback runs: the started segments followed by
the pending queue are exactly the enqueued segments in arrival order,
`isPlaying` tracks the presence of a current element, and when idle the queue
is drained. -/
theorem playRun_fifo (evs : List QueueEvent) :
    ∀ s : PlayState,
      s.isPlaying = s.currentAudio.isSome →
      (s.isPlaying = false → s.audioQueue = []) →
      (playRun s (evs.map QueueEvent.toPlayEvent)).started ++
          (playRun s (evs.map QueueEvent.toPlayEvent)).audioQueue =
        s.started ++ s.audioQueue ++ enqueuedOf evs
      ∧ (playRun s (evs.map QueueEvent.toPlayEvent)).isPlaying =
          (playRun s (evs.map QueueEvent.toPlayEvent)).currentAudio.isSome
      ∧ ((playRun s (evs.map QueueEvent.toPlayEvent)).isPlaying = false →
          (playRun s (evs.map QueueEvent.toPlayEvent)).audioQueue = []) := by
  induction evs with
  | nil =>
      intro s h1 h2
      exact ⟨by simp [playRun, enqueuedOf], h1, h2⟩
  | cons e evs ih =>
      intro s h1 h2
      cases e with
      | enqueue seg =>
          by_cases hp : s.isPlaying
          · have hstep : playStep s (QueueEvent.enqueue seg).toPlayEvent =
                { s with audioQueue := s.audioQueue ++ [seg] } := by
              simp [QueueEvent.toPlayEvent, playStep, playAudio, hp]
            have ih1 := ih { s with audioQueue := s.audioQueue ++ [seg] }
              h1
              (by intro hf; simp [hp] at hf)
            simp only [List.map_cons, playRun, hstep]
            refine ⟨?_, ih1.2.1, ih1.2.2⟩
            rw [ih1.1]
            simp [enqueuedOf]
          · have hq : s.audioQueue = [] := h2 (by simpa using hp)
            have hstep : playStep s (QueueEvent.enqueue seg).toPlayEvent =
                { s with isPlaying := true, currentAudio := some seg,
                         started := s.started ++ [seg] } := by
              simp [QueueEvent.toPlayEvent, playStep, playAudio, hp]
            have ih1 := ih { s with isPlaying := true, currentAudio := some seg,
                                    started := s.started ++ [seg] }
              rfl (by intro hf; simp at hf)
            simp only [List.map_cons, playRun, hstep]
            refine ⟨?_, ih1.2.1, ih1.2.2⟩
            rw [ih1.1]
            simp [enqueuedOf, hq]
      | ended =>
          by_cases hc : s.currentAudio.isSome
          · cases hqe : s.audioQueue with
            | nil =>
                have hstep : playStep s QueueEvent.ended.toPlayEvent =
                    { s with isPlaying := false, currentAudio := none } := by
                  simp [QueueEvent.toPlayEvent, playStep, hc, onEnded, hqe]
                have ih1 := ih { s with isPlaying := false, currentAudio := none }
                  rfl (fun _ => hqe)
                simp only [List.map_cons, playRun, hstep]
                refine ⟨?_, ih1.2.1, ih1.2.2⟩
                rw [ih1.1]
                simp [enqueuedOf, hqe]
            | cons next rest =>
                have hstep : playStep s QueueEvent.ended.toPlayEvent =
                    { s with isPlaying := true, currentAudio := some next,
                             audioQueue := rest, started := s.started ++ [next] } := by
                  simp [QueueEvent.toPlayEvent, playStep, hc, onEnded, hqe, playAudio]
                have ih1 := ih { s with isPlaying := true, currentAudio := some next,
                                        audioQueue := rest, started := s.started ++ [next] }
                  rfl (by intro hf; simp at hf)
                simp only [List.map_cons, playRun, hstep]
                refine ⟨?_, ih1.2.1, ih1.2.2⟩
                rw [ih1.1]
                simp [enqueuedOf, hqe]
          · have hstep : playStep s QueueEvent.ended.toPlayEvent = s := by
              simp [QueueEvent.toPlayEvent, playStep, hc]
            have ih1 := ih s h1 h2
            simp only [List.map_cons, playRun, hstep]
            refine ⟨?_, ih1.2.1, ih1.2.2⟩
            rw [ih1.1]
            simp [enqueuedOf]

/-- Claim C3: for every sequence of enqueue calls and natural playback
completions starting from the empty queue, the segments that start playing,
followed by the still-pending queue, are exactly the enqueued segments in
FIFO order (so no reordering and no segment starts before all earlier ones
finished), `isPlaying` is true exactly when some segment is mid-playback, and
once playback is idle every enqueued segment has been played in order. -/
theorem C3_playback_fifo :
    ∀ evs : List QueueEvent,
      (playRun initPlay (evs.map QueueEvent.toPlayEvent)).started ++
          (playRun initPlay (evs.map QueueEvent.toPlayEvent)).audioQueue =
        enqueuedOf evs
      ∧ (playRun initPlay (evs.map QueueEvent.toPlayEvent)).isPlaying =
          (playRun initPlay (evs.map QueueEvent.toPlayEvent)).currentAudio.isSome
      ∧ ((playRun initPlay (evs.map QueueEvent.toPlayEvent)).isPlaying = false →
          (playRun initPlay (evs.map QueueEvent.toPlayEvent)).started = enqueuedOf evs) := by
  intro evs
  obtain ⟨hled, hiff, hque⟩ := playRun_fifo evs initPlay rfl (fun _ => rfl)
  refine ⟨by simpa [initPlay] using hled, hiff, ?_⟩
  intro hf
  have hq := hque hf
  have := hled
  rw [hq] at this
  simpa [initPlay] using this

/-- Witness for C3: enqueueing one segment and letting it end leaves a drained
queue whose played order equals the enqueue order. -/
theorem C3_playback_fifo_witness :
    (playRun initPlay
        ([QueueEvent.enqueue "a", QueueEvent.ended].map QueueEvent.toPlayEvent)).started =
      enqueuedOf [QueueEvent.enqueue "a", QueueEvent.ended] :=
  (C3_playback_fifo [QueueEvent.enqueue "a", QueueEvent.ended]).2.2 (by decide)

/-- Counterexample to claim C4 as stated: enqueue segment a, enqueue segment b
while a plays, then let a fail.  The failure leaves b still queued, nothing
playing and nothing newly started — the next enqueued segment does NOT start
automatically — and a subsequent completion event changes nothing, so the
queue stays stalled on b. -/
theorem C4_error_advance_counterexample :
    playRun initPlay [PlayEvent.enqueue "a", PlayEvent.enqueue "b", PlayEvent.errored] =
      { isPlaying := false, audioQueue := ["b"], currentAudio := none,
        started := ["a"], playbackErrors := 1 }
    ∧ playStep (playRun initPlay
        [PlayEvent.enqueue "a", PlayEvent.enqueue "b", PlayEvent.errored]) PlayEvent.ended =
      playRun initPlay [PlayEvent.enqueue "a", PlayEvent.enqueue "b", PlayEvent.errored] :=
  ⟨by decide, by decide⟩

/-- Claim C4 (amended): a decode/playback failure of the currently playing
segment surfaces exactly one error for that segment and clears the playing
slot, but it does not advance the queue: the enqueued segments remain queued
unchanged and none of them starts automatically. -/
theorem C4_error_no_advance :
    ∀ s : PlayState, s.currentAudio.isSome = true →
      (playStep s PlayEvent.errored).playbackErrors = s.playbackErrors + 1
      ∧ (playStep s PlayEvent.errored).audioQueue = s.audioQueue
      ∧ (playStep s PlayEvent.errored).started = s.started
      ∧ (playStep s PlayEvent.errored).isPlaying = false
      ∧ (playStep s PlayEvent.errored).currentAudio = none := by
  intro s h
  simp [playStep, h, onPlaybackError]

/-- Witness for C4 at the state where a plays and b is queued: the failure
leaves b queued and playback idle. -/
theorem C4_error_no_advance_witness :
    (playStep (playRun initPlay [PlayEvent.enqueue "a", PlayEvent.enqueue "b"])
        PlayEvent.errored).audioQueue =
      (playRun initPlay [PlayEvent.enqueue "a", PlayEvent.enqueue "b"]).audioQueue
    ∧ (playStep (playRun initPlay [PlayEvent.enqueue "a", PlayEvent.enqueue "b"])
        PlayEvent.errored).isPlaying = false :=
  ⟨(C4_error_no_advance (playRun initPlay [PlayEvent.enqueue "a", PlayEvent.enqueue "b"])
      (by decide)).2.1,
   (C4_error_no_advance (playRun initPlay [PlayEvent.enqueue "a", PlayEvent.enqueue "b"])
      (by decide)).2.2.2.1⟩

end AudioMgr

namespace VoicePage

/-- Claim C5 evaluated on the code (code bug): delivering
`[transcription "oi", response "olá" with audio seg and conversation_id "c1"]`
to the fresh page leaves the conversation log with ZERO entries (not 2), the
`conversationId` still null (not "c1") and produces NO enqueue on the
playback queue.  The `transcription` branch only sets `currentTranscription`
and never appends a user entry, and the `response` branch evaluates
`message.lead_id || prev.leadId` with `prev` unbound (the message carries no
`lead_id`, so the short-circuit reaches `prev`), throwing a `ReferenceError`
that the transport catch swallows before any state update, session save or
audio enqueue. -/
theorem C5_inbound_sequence_result :
    processSeq initPage
        [{ type := "transcription", text := some "oi" },
         { type := "response", text := some "olá", audio_base64 := some "seg",
           conversation_id := some "c1" }] =
      ({ initPage with currentTranscription := "oi" }, [])
    ∧ onMessage { initPage with currentTranscription := "oi" }
        { type := "response", text := some "olá", audio_base64 := some "seg",
          conversation_id := some "c1" } =
      Except.error JsError.referenceErrorPrevUnbound
    ∧ (processSeq initPage
        [{ type := "transcription", text := some "oi" },
         { type := "response", text := some "olá", audio_base64 := some "seg",
           conversation_id := some "c1" }]).1.transcriptions = []
    ∧ (processSeq initPage
        [{ type := "transcription", text := some "oi" },
         { type := "response", text := some "olá", audio_base64 := some "seg",
           conversation_id := some "c1" }]).1.conversationId = none :=
  ⟨by decide, rfl, by decide, by decide⟩

/-- Claim C6 evaluated on the code (code bug): a `response` message carrying a
server `conversation_id` "c2" but no `lead_id` makes the handler throw the
`ReferenceError` on the unbound `prev`, so the server value is NOT adopted and
the page state is left untouched, contrary to the claim that server-provided
identifiers are adopted when present.  Only when BOTH identifiers are present
and truthy does the branch run, and then it adopts both server values (never
writing null over them). -/
theorem C6_id_adoption_result :
    processInbound initPage
        { type := "response", text := some "olá", conversation_id := some "c2" } =
      (initPage, [])
    ∧ onMessage initPage
        { type := "response", text := some "olá", conversation_id := some "c2" } =
      Except.error JsError.referenceErrorPrevUnbound
    ∧ onMessage initPage
        { type := "response", text := some "olá", conversation_id := some "c2",
          lead_id := some "l1" } =
      Except.ok ({ initPage with
          transcriptions := [{ speaker := Speaker.agent, text := "olá",
                               state := AgentState.speaking }],
          conversationId := some "c2", leadId := some "l1" },
        [Effect.saveSession "c2" (some "l1")]) :=
  ⟨by decide, rfl, rfl⟩

end VoicePage
